import Mathlib

/-!
# Verification of the Silica-Protocol contracts (crc20 fungible ledger, crc721 registry)

Shallow embedding of `src/crc20/src/lib.rs` and `src/crc721/src/lib.rs`.

The key-value storage collaborator is modelled as association lists inside an
explicit state record; `storage().get`/`set`/`has` become `kvGet`/`kvSet`/
`Option.isSome`.  Machine `u64` values are modelled as `Nat` with explicit
`< 2 ^ 64` bound checks where the source uses `safe_math::add`/`sub`.
`context().sender()` becomes an explicit `sender`/`caller` argument, and the
deserialization layer (`read_args`) is skipped: entry points take decoded
arguments directly.  Rust `assert!` failures (panics) are modelled as an
explicit error kind, since they abort the call.  The reentrancy guard always
succeeds for a single external invocation (the host serializes calls), so it
is not part of the state.  Each state-changing operation returns the final
state (including any writes committed before a failure), the list of emitted
events, and its success/error outcome, so that partial-write behaviour on
failure is observable.
-/

/-- `2 ^ 64`, the exclusive upper bound of Rust `u64` values. -/
def U64 : Nat := 2 ^ 64

/-- Key-value store read: first entry with the given key (mirrors `Map::get`). -/
def kvGet {α β : Type} [DecidableEq α] (m : List (α × β)) (k : α) : Option β :=
  match m with
  | [] => none
  | (k', v) :: rest => if k' = k then some v else kvGet rest k

/-- Key-value store write: replaces the first entry with the given key, or
appends one (mirrors `Map::set`). -/
def kvSet {α β : Type} [DecidableEq α] (m : List (α × β)) (k : α) (v : β) :
    List (α × β) :=
  match m with
  | [] => [(k, v)]
  | (k', v') :: rest => if k' = k then (k, v) :: rest else (k', v') :: kvSet rest k v

namespace Crc20

/-- `TokenMetadata` from `src/crc20/src/lib.rs`. -/
structure TokenMetadata where
  name : String
  symbol : String
  decimals : Nat
  total_supply : Nat
  owner : String
deriving DecidableEq

/-- Contract storage of the fungible ledger: the `metadata` singleton key, the
`balances` map and the `allowances` map. -/
structure CState where
  metadata : Option TokenMetadata
  balances : List (String × Nat)
  allowances : List ((String × String) × Nat)
deriving DecidableEq

/-- The empty storage before any call. -/
def emptyC : CState := ⟨none, [], []⟩

/-- `ContractError` kinds reachable in the modelled code; `panicked` models a
Rust `assert!` failure aborting the call. -/
inductive CErr where
  | invalidArgument (reason : String)
  | unauthorized
  | insufficientBalance (required available : Nat)
  | overflow
  | underflow
  | panicked (msg : String)
deriving DecidableEq

/-- Events emitted by the fungible ledger. -/
inductive CEvent where
  | Transfer (fromAddr toAddr : String) (amount : Nat)
  | Approval (owner spender : String) (amount : Nat)
deriving DecidableEq

/-- `safe_math::add` on u64: fails with Overflow when the sum leaves the range. -/
def safeAdd (a b : Nat) : Except CErr Nat :=
  if a + b < U64 then .ok (a + b) else .error .overflow

/-- `safe_math::sub` on u64: fails with Underflow when `b > a`. -/
def safeSub (a b : Nat) : Except CErr Nat :=
  if b ≤ a then .ok (a - b) else .error .underflow

/-- The result of a state-changing fungible entry point: final storage (with
any writes committed before a failure), emitted events, and the error if the
call failed. -/
abbrev CResult := CState × List CEvent × Option CErr

/-- `transfer_impl` (src/crc20/src/lib.rs lines 163-186): validation, balance
check, checked arithmetic, then the two balance writes.  Note the recipient
balance is read before either write commits, which is what the source does. -/
def transfer_impl (s : CState) (fromA toA : String) (amount : Nat) :
    Except CErr CState :=
  if fromA = "" then .error (.invalidArgument "Invalid address")
  else if toA = "" then .error (.invalidArgument "Invalid address")
  else if amount = 0 then .error (.invalidArgument "Amount must be positive")
  else
    let from_balance := (kvGet s.balances fromA).getD 0
    if from_balance < amount then
      .error (.insufficientBalance amount from_balance)
    else
      match safeSub from_balance amount with
      | .error e => .error e
      | .ok new_from_balance =>
        let to_balance := (kvGet s.balances toA).getD 0
        match safeAdd to_balance amount with
        | .error e => .error e
        | .ok new_to_balance =>
          let s1 : CState := { s with balances := kvSet s.balances fromA new_from_balance }
          .ok { s1 with balances := kvSet s1.balances toA new_to_balance }

/-- `execute_initialize` (lines 188-216): validates the fields, fails when the
metadata singleton already exists, then writes the metadata and credits the
deployer. -/
def execute_init (s : CState) (sender nm sym : String) (dec supply : Nat) :
    CResult :=
  if nm = "" then (s, [], some (.invalidArgument "name"))
  else if sym = "" then (s, [], some (.invalidArgument "symbol"))
  else if s.metadata.isSome then
    (s, [], some (.invalidArgument "Token already initialized"))
  else if sender = "" then (s, [], some (.invalidArgument "Invalid address"))
  else
    let md : TokenMetadata :=
      { name := nm, symbol := sym, decimals := dec, total_supply := supply,
        owner := sender }
    let s1 : CState := { s with metadata := some md }
    let s2 : CState := { s1 with balances := kvSet s1.balances sender supply }
    (s2, [.Transfer "0x0" sender supply], none)

/-- `execute_transfer` (lines 218-228): initialization check, positive-amount
check, `transfer_impl`, then the Transfer event. -/
def execute_transfer (s : CState) (sender toA : String) (amount : Nat) :
    CResult :=
  if s.metadata.isNone then
    (s, [], some (.invalidArgument "Token contract not initialized"))
  else if amount = 0 then (s, [], some (.invalidArgument "Amount must be positive"))
  else
    match transfer_impl s sender toA amount with
    | .error e => (s, [], some e)
    | .ok s' => (s', [.Transfer sender toA amount], none)

/-- `execute_approve` (lines 230-239): absolute overwrite of the allowance;
`write_allowance` asserts both addresses non-empty. -/
def execute_approve (s : CState) (sender spender : String) (amount : Nat) :
    CResult :=
  if s.metadata.isNone then
    (s, [], some (.invalidArgument "Token contract not initialized"))
  else if sender = "" then (s, [], some (.panicked "Allowance owner cannot be empty"))
  else if spender = "" then (s, [], some (.panicked "Allowance spender cannot be empty"))
  else
    ({ s with allowances := kvSet s.allowances (sender, spender) amount },
     [.Approval sender spender amount], none)

/-- `execute_transfer_from` (lines 241-262): allowance check, `transfer_impl`
with actor `fromA`, then the checked allowance decrement and write. -/
def execute_transfer_from (s : CState) (sender fromA toA : String)
    (amount : Nat) : CResult :=
  if s.metadata.isNone then
    (s, [], some (.invalidArgument "Token contract not initialized"))
  else if amount = 0 then (s, [], some (.invalidArgument "Amount must be positive"))
  else if fromA = "" then (s, [], some (.panicked "Allowance owner cannot be empty"))
  else if sender = "" then (s, [], some (.panicked "Allowance spender cannot be empty"))
  else
    let allowance := (kvGet s.allowances (fromA, sender)).getD 0
    if allowance < amount then
      (s, [], some (.insufficientBalance amount allowance))
    else
      match transfer_impl s fromA toA amount with
      | .error e => (s, [], some e)
      | .ok s1 =>
        match safeSub allowance amount with
        | .error e => (s1, [], some e)
        | .ok new_allowance =>
          ({ s1 with allowances := kvSet s1.allowances (fromA, sender) new_allowance },
           [.Transfer fromA toA amount], none)

/-- `execute_mint` (lines 298-320): owner check, checked total-supply bump and
metadata write, then the recipient balance credit.  The metadata write commits
before the balance arithmetic, exactly as in the source. -/
def execute_mint (s : CState) (sender toA : String) (amount : Nat) : CResult :=
  if s.metadata.isNone then
    (s, [], some (.invalidArgument "Token contract not initialized"))
  else if amount = 0 then (s, [], some (.invalidArgument "Amount must be positive"))
  else
    match s.metadata with
    | none => (s, [], some (.invalidArgument "Token not initialized"))
    | some md =>
      if sender ≠ md.owner then (s, [], some .unauthorized)
      else
        match safeAdd md.total_supply amount with
        | .error e => (s, [], some e)
        | .ok new_total =>
          let s1 : CState := { s with metadata := some { md with total_supply := new_total } }
          if toA = "" then
            (s1, [], some (.panicked "Balance lookup requires non-empty address"))
          else
            let current_balance := (kvGet s1.balances toA).getD 0
            match safeAdd current_balance amount with
            | .error e => (s1, [], some e)
            | .ok new_balance =>
              ({ s1 with balances := kvSet s1.balances toA new_balance },
               [.Transfer "0x0" toA amount], none)

/-- The stored total supply (as read by `execute_total_supply`). -/
def totalSupplyOf (s : CState) : Nat :=
  match s.metadata with
  | some md => md.total_supply
  | none => 0

/-- Sum of every stored fungible balance. -/
def sumBalances (m : List (String × Nat)) : Nat := (m.map Prod.snd).sum

end Crc20

namespace Crc721

/-- `CollectionMetadata` from `src/crc721/src/lib.rs` (the `initialized` flag
is named `inited` here; it is written by `initialize` and read nowhere). -/
structure CollectionMetadata where
  name : String
  symbol : String
  base_uri : String
  total_supply : Nat
  owner : String
  inited : Bool
deriving DecidableEq

/-- `TokenInfo` from `src/crc721/src/lib.rs`. -/
structure TokenInfo where
  token_id : Nat
  owner : String
  metadata_uri : String
  burned : Bool
deriving DecidableEq

/-- Contract storage of the registry: the `collection_metadata` singleton key
and the five maps (`tokens`, `balances`, `token_approvals`,
`operator_approvals`, `all_tokens`, `owner_tokens`). -/
structure RState where
  collection : Option CollectionMetadata
  tokens : List (Nat × TokenInfo)
  balances : List (String × Nat)
  token_approvals : List (Nat × String)
  operator_approvals : List ((String × String) × Bool)
  all_tokens : List (String × List Nat)
  owner_tokens : List (String × List Nat)
deriving DecidableEq

/-- The empty registry storage before any call. -/
def emptyR : RState := ⟨none, [], [], [], [], [], []⟩

/-- Events emitted by the registry. -/
inductive REvent where
  | Transfer (fromAddr toAddr : String) (tid : Nat)
  | Approval (owner approved : String) (tid : Nat)
  | ApprovalForAll (owner oper : String) (approved : Bool)
  | CollectionInit (name symbol base_uri owner : String)
deriving DecidableEq

/-- The result of a registry entry point: final storage (with any writes
committed before an early `return`), emitted events, and whether the call
ran to completion (the source reports failure by `log` + early return). -/
abbrev RResult := RState × List REvent × Bool

/-- `initialize` of the registry (src/crc721/src/lib.rs lines 55-101): rejects
empty fields, then unconditionally overwrites the collection metadata.  There
is no already-initialized check. -/
def r_init (s : RState) (sender nm sym bu : String) : RResult :=
  if nm = "" then (s, [], false)
  else if sym = "" then (s, [], false)
  else if bu = "" then (s, [], false)
  else
    let md : CollectionMetadata :=
      { name := nm, symbol := sym, base_uri := bu, total_supply := 0,
        owner := sender, inited := true }
    ({ s with collection := some md }, [.CollectionInit nm sym bu sender], true)

/-- `is_owner` (lines 104-112): caller equals the collection metadata owner. -/
def is_owner (s : RState) (sender : String) : Bool :=
  match s.collection with
  | some m => sender = m.owner
  | none => false

/-- `is_approved_for_token` (lines 115-138).  Note the operator-approval key
is built from the collection metadata owner, not the token's recorded owner,
exactly as in the source. -/
def is_approved_for_token (s : RState) (tid : Nat) (addr : String) : Bool :=
  match s.collection with
  | none => false
  | some m =>
    if kvGet s.operator_approvals (m.owner, addr) = some true then true
    else
      match kvGet s.token_approvals tid with
      | some approved_addr => approved_addr = addr
      | none => false

/-- `mint` (lines 147-274): owner check, argument checks, token-exists check,
then the token record, balance count, global index, per-owner index and
total-supply writes, in source order. -/
def mint (s : RState) (sender toA : String) (tid : Nat) (uri : String) :
    RResult :=
  if is_owner s sender then
    if toA = "" then (s, [], false)
    else if uri = "" then (s, [], false)
    else if (kvGet s.tokens tid).isSome then (s, [], false)
    else
      let tinfo : TokenInfo :=
        { token_id := tid, owner := toA, metadata_uri := uri, burned := false }
      let s1 : RState := { s with tokens := kvSet s.tokens tid tinfo }
      let cur := (kvGet s1.balances toA).getD 0
      let newBal := if cur + 1 < U64 then cur + 1 else 0
      let s2 : RState := { s1 with balances := kvSet s1.balances toA newBal }
      let newGlobal :=
        match kvGet s2.all_tokens "global" with
        | some v => v ++ [tid]
        | none => [tid]
      let s3 : RState := { s2 with all_tokens := kvSet s2.all_tokens "global" newGlobal }
      let ot := (kvGet s3.owner_tokens toA).getD []
      let s4 : RState := { s3 with owner_tokens := kvSet s3.owner_tokens toA (ot ++ [tid]) }
      match s4.collection with
      | some m =>
        let newTs := if m.total_supply + 1 < U64 then m.total_supply + 1 else m.total_supply
        ({ s4 with collection := some { m with total_supply := newTs } },
         [.Transfer "0x0" toA tid], true)
      | none => (s4, [], false)
  else (s, [], false)

/-- `transfer_from` (lines 283-409): ownership and authorization checks, then
the owner reassignment (committed first), balance updates (with the
zero-balance early return after the owner write, as in the source), approval
clearing and per-owner index updates. -/
def transfer_from (s : RState) (caller fromA toA : String) (tid : Nat) :
    RResult :=
  if fromA = "" ∨ toA = "" then (s, [], false)
  else
    match kvGet s.tokens tid with
    | none => (s, [], false)
    | some t =>
      if t.owner ≠ fromA then (s, [], false)
      else if t.owner ≠ caller ∧ ¬ is_approved_for_token s tid caller then
        (s, [], false)
      else
        let t' : TokenInfo := { t with owner := toA }
        let s1 : RState := { s with tokens := kvSet s.tokens tid t' }
        let from_balance := (kvGet s1.balances fromA).getD 0
        if from_balance = 0 then (s1, [], false)
        else
          let s2 : RState := { s1 with balances := kvSet s1.balances fromA (from_balance - 1) }
          let to_balance := (kvGet s2.balances toA).getD 0
          let new_to_balance := if to_balance + 1 < U64 then to_balance + 1 else 0
          let s3 : RState := { s2 with balances := kvSet s2.balances toA new_to_balance }
          let s4 : RState := { s3 with token_approvals := kvSet s3.token_approvals tid "" }
          let sender_tokens := (kvGet s4.owner_tokens fromA).getD []
          let s5 : RState :=
            { s4 with owner_tokens := kvSet s4.owner_tokens fromA (sender_tokens.erase tid) }
          let recipient_tokens := (kvGet s5.owner_tokens toA).getD []
          let s6 : RState :=
            { s5 with owner_tokens := kvSet s5.owner_tokens toA (recipient_tokens ++ [tid]) }
          (s6, [.Transfer fromA toA tid], true)

/-- `safe_transfer_from` (lines 419-430): delegates to `transfer_from`; the
data payload is ignored. -/
def safe_transfer_from (s : RState) (caller fromA toA : String) (tid : Nat)
    (_data : List Nat) : RResult :=
  transfer_from s caller fromA toA tid

/-- `approve` (lines 438-482): only the current owner; rejects approving the
owner itself; overwrites the per-token approval. -/
def approve (s : RState) (caller toA : String) (tid : Nat) : RResult :=
  match kvGet s.tokens tid with
  | none => (s, [], false)
  | some t =>
    if t.owner ≠ caller then (s, [], false)
    else if toA = caller then (s, [], false)
    else
      ({ s with token_approvals := kvSet s.token_approvals tid toA },
       [.Approval caller toA tid], true)

/-- `set_approval_for_all` (lines 490-535). -/
def set_approval_for_all (s : RState) (caller oper : String) (approved : Bool) :
    RResult :=
  if oper = "" then (s, [], false)
  else if oper = caller then (s, [], false)
  else
    match s.collection with
    | none => (s, [], false)
    | some _ =>
      ({ s with operator_approvals := kvSet s.operator_approvals (caller, oper) approved },
       [.ApprovalForAll caller oper approved], true)

/-- `burn` (lines 542-636): authorization check, then the token record is
overwritten with `burned := true, owner := "0x0"` before the balance of
`token_info.owner` — which is now the zero address — is read; a missing
zero-address balance entry aborts the call at that point, as in the source.
The operator-approval sweep uses the two hardcoded operator names against the
(already overwritten) owner field. -/
def burn (s : RState) (caller : String) (tid : Nat) : RResult :=
  match kvGet s.tokens tid with
  | none => (s, [], false)
  | some t =>
    if t.owner ≠ caller ∧ ¬ is_approved_for_token s tid caller then (s, [], false)
    else
      let t' : TokenInfo := { t with burned := true, owner := "0x0" }
      let s1 : RState := { s with tokens := kvSet s.tokens tid t' }
      match kvGet s1.balances "0x0" with
      | none => (s1, [], false)
      | some owner_balance =>
        let bal2 :=
          if owner_balance > 0 then kvSet s1.balances "0x0" (owner_balance - 1)
          else s1.balances
        let s2 : RState := { s1 with balances := bal2 }
        let s3 : RState := { s2 with token_approvals := kvSet s2.token_approvals tid "" }
        let k1 : String × String := ("0x0", "operator1")
        let k2 : String × String := ("0x0", "operator2")
        let oa1 :=
          if kvGet s3.operator_approvals k1 = some true then
            kvSet s3.operator_approvals k1 false
          else s3.operator_approvals
        let oa2 :=
          if kvGet s3.operator_approvals k2 = some true then kvSet oa1 k2 false
          else oa1
        ({ s3 with operator_approvals := oa2 }, [.Transfer caller "0x0" tid], true)

/-- `owner_of` (lines 640-652): zero address for burned or missing tokens. -/
def owner_of (s : RState) (tid : Nat) : String :=
  match kvGet s.tokens tid with
  | some t => if t.burned then "0x0" else t.owner
  | none => "0x0"

/-- `balance_of` (lines 656-663). -/
def balance_of (s : RState) (ownerA : String) : Nat :=
  if ownerA = "" then 0 else (kvGet s.balances ownerA).getD 0

/-- `get_approved` (lines 667-673): stored approval, or "0x0" when no entry
exists. -/
def get_approved (s : RState) (tid : Nat) : String :=
  (kvGet s.token_approvals tid).getD "0x0"

end Crc721

open Crc20

/-- The ledger state after `initialize(name, symbol, 18, 1000)` by `0xA`,
matching the spec's fungible scenario. -/
def c1State : CState :=
  (execute_init emptyC "0xA" "Chert Token" "CHT" 18 1000).1

/-- Registry state after `initialize("Punks", "PK", "u/")` by `0xD`. -/
def rBase : Crc721.RState :=
  (Crc721.r_init Crc721.emptyR "0xD" "Punks" "PK" "u/").1

/-- `rBase` after `mint(to=0xX, token_id=1, uri="a")` by the collection owner. -/
def rX1 : Crc721.RState := (Crc721.mint rBase "0xD" "0xX" 1 "a").1

/-- `rBase` after `mint(to=0xZ, token_id=1, uri="a")` by the collection owner. -/
def rZ1 : Crc721.RState := (Crc721.mint rBase "0xD" "0xZ" 1 "a").1

/-- `rZ1` with the token approved for `0xY` by its owner `0xZ`. -/
def rZ1Y : Crc721.RState := (Crc721.approve rZ1 "0xZ" "0xY" 1).1

/-- Registry state holding a balance entry for the zero address (token 7 was
minted to "0x0", a non-empty string the code accepts) plus token 1 owned by
`0xZ`.  In such states `burn` runs past its zero-address balance lookup. -/
def rZeroZ : Crc721.RState :=
  (Crc721.mint (Crc721.mint rBase "0xD" "0x0" 7 "x").1 "0xD" "0xZ" 1 "a").1

/-- `rX1` after the token's recorded owner `0xX` grants `0xO` an operator
approval via `set_approval_for_all`. -/
def rX1OpX : Crc721.RState := (Crc721.set_approval_for_all rX1 "0xX" "0xO" true).1

/-- `rX1` after the collection owner `0xD` (who owns no token) grants `0xO2`
an operator approval. -/
def rX1OpD : Crc721.RState := (Crc721.set_approval_for_all rX1 "0xD" "0xO2" true).1

/-- A small initialized fungible state for the C7 witness: owner `0xA` holds
10 tokens and has granted `0xC` an allowance of 5. -/
def c7S : CState :=
  { metadata := some { name := "T", symbol := "T", decimals := 0,
                       total_supply := 10, owner := "0xA" },
    balances := [("0xA", 10)],
    allowances := [(("0xA", "0xC"), 5)] }

/-- One state-changing call of either ledger, among the entry points whose
failures leave the store untouched (the registry's `transfer_from`,
`safe_transfer_from` and `burn` are deliberately not included: they can fail
after partial writes, see the C3 counterexample). -/
inductive DCall where
  | fInitCall (sender nm sym : String) (dec supply : Nat)
  | fTransfer (sender toA : String) (amount : Nat)
  | fApprove (sender spender : String) (amount : Nat)
  | fTransferFrom (sender fromA toA : String) (amount : Nat)
  | fMint (sender toA : String) (amount : Nat)
  | rInitCall (sender nm sym bu : String)
  | rMint (sender toA : String) (tid : Nat) (uri : String)
  | rApprove (sender toA : String) (tid : Nat)
  | rSetApprovalForAll (sender oper : String) (approved : Bool)

/-- Combined state of the two deployed contracts. -/
abbrev DState := CState × Crc721.RState

/-- Run one call: final combined state, events of each ledger, and a success
flag (fungible calls succeed when no error is returned; registry calls when
they run to completion). -/
def runDCall (c : DCall) (p : DState) :
    DState × (List CEvent × List Crc721.REvent) × Bool :=
  match c with
  | .fInitCall sender nm sym dec supply =>
    let r := execute_init p.1 sender nm sym dec supply
    ((r.1, p.2), (r.2.1, []), r.2.2.isNone)
  | .fTransfer sender toA amount =>
    let r := execute_transfer p.1 sender toA amount
    ((r.1, p.2), (r.2.1, []), r.2.2.isNone)
  | .fApprove sender spender amount =>
    let r := execute_approve p.1 sender spender amount
    ((r.1, p.2), (r.2.1, []), r.2.2.isNone)
  | .fTransferFrom sender fromA toA amount =>
    let r := execute_transfer_from p.1 sender fromA toA amount
    ((r.1, p.2), (r.2.1, []), r.2.2.isNone)
  | .fMint sender toA amount =>
    let r := execute_mint p.1 sender toA amount
    ((r.1, p.2), (r.2.1, []), r.2.2.isNone)
  | .rInitCall sender nm sym bu =>
    let r := Crc721.r_init p.2 sender nm sym bu
    ((p.1, r.1), ([], r.2.1), r.2.2)
  | .rMint sender toA tid uri =>
    let r := Crc721.mint p.2 sender toA tid uri
    ((p.1, r.1), ([], r.2.1), r.2.2)
  | .rApprove sender toA tid =>
    let r := Crc721.approve p.2 sender toA tid
    ((p.1, r.1), ([], r.2.1), r.2.2)
  | .rSetApprovalForAll sender oper approved =>
    let r := Crc721.set_approval_for_all p.2 sender oper approved
    ((p.1, r.1), ([], r.2.1), r.2.2)

/-- Side condition under which a call's failure paths all precede its writes.
Only the fungible mint needs one: a non-empty recipient (the source otherwise
panics after the metadata write) and no recipient-balance overflow (the
source otherwise errors after the metadata write). -/
def dcallOk (c : DCall) (p : DState) : Prop :=
  match c with
  | .fMint _ toA amount =>
    toA ≠ "" ∧ (kvGet p.1.balances toA).getD 0 + amount < U64
  | _ => True

/-- The stored per-owner token sequence of an address. -/
def ownerList (s : Crc721.RState) (a : String) : List Nat :=
  (kvGet s.owner_tokens a).getD []

/-- Whether the token record of `tid` names `a` as owner and is not burned. -/
def ownedBy (s : Crc721.RState) (a : String) (tid : Nat) : Bool :=
  match kvGet s.tokens tid with
  | some t => (t.owner == a) && !t.burned
  | none => false

/-- The C8 property: every per-owner sequence has no duplicates and holds
exactly the token_ids whose record names that owner and is not burned. -/
def C8Prop (s : Crc721.RState) : Prop :=
  ∀ a : String, (ownerList s a).Nodup ∧
    ∀ tid : Nat, tid ∈ ownerList s a ↔ ownedBy s a tid = true

/-- Inductive invariant for C8: the C8 property, balance counts equal to the
per-owner sequence lengths, and no burned records. -/
def RInv (s : Crc721.RState) : Prop :=
  C8Prop s ∧
  (∀ a : String, (kvGet s.balances a).getD 0 = (ownerList s a).length) ∧
  (∀ tid t, kvGet s.tokens tid = some t → t.burned = false)

/-- One registry operation of the kinds covered by the amended C8. -/
inductive ROp where
  | mintOp (sender toA : String) (tid : Nat) (uri : String)
  | transferOp (caller fromA toA : String) (tid : Nat)
  | safeTransferOp (caller fromA toA : String) (tid : Nat) (data : List Nat)

/-- Run one registry operation, keeping whatever state it leaves behind. -/
def runROp (s : Crc721.RState) (op : ROp) : Crc721.RState :=
  match op with
  | .mintOp sender toA tid uri => (Crc721.mint s sender toA tid uri).1
  | .transferOp caller fromA toA tid =>
    (Crc721.transfer_from s caller fromA toA tid).1
  | .safeTransferOp caller fromA toA tid data =>
    (Crc721.safe_transfer_from s caller fromA toA tid data).1

/-- Run a sequence of registry operations. -/
def runROps (s : Crc721.RState) (ops : List ROp) : Crc721.RState :=
  match ops with
  | [] => s
  | op :: rest => runROps (runROp s op) rest

/-! ## Theorems -/

theorem kvGet_kvSet_self {α β : Type} [DecidableEq α] (m : List (α × β)) (k : α)
    (v : β) : kvGet (kvSet m k v) k = some v := by
  induction m with
  | nil => simp [kvGet, kvSet]
  | cons hd tl ih =>
    obtain ⟨k', v'⟩ := hd
    by_cases h : k' = k
    · simp [kvGet, kvSet, h]
    · simp [kvGet, kvSet, h, ih]

theorem kvGet_kvSet_ne {α β : Type} [DecidableEq α] (m : List (α × β)) {k k' : α}
    (v : β) (h : k' ≠ k) : kvGet (kvSet m k v) k' = kvGet m k' := by
  induction m with
  | nil => simp [kvGet, kvSet, Ne.symm h]
  | cons hd tl ih =>
    obtain ⟨k0, v0⟩ := hd
    by_cases h0 : k0 = k
    · subst h0
      simp [kvGet, kvSet, Ne.symm h]
    · simp only [kvSet, if_neg h0, kvGet]
      by_cases h1 : k0 = k'
      · simp [h1]
      · simp [h1, ih]

theorem length_kvSet_le {α β : Type} [DecidableEq α] (m : List (α × β)) (k : α)
    (v : β) : (kvSet m k v).length ≤ m.length + 1 := by
  induction m with
  | nil => simp [kvSet]
  | cons hd tl ih =>
    obtain ⟨k', v'⟩ := hd
    by_cases h : k' = k
    · simp [kvSet, h]
    · simpa [kvSet, h] using Nat.succ_le_succ ih

/-- Keys with a stored value are keys of the association list. -/
theorem mem_keys_of_kvGet {α β : Type} [DecidableEq α] {m : List (α × β)} {k : α}
    {v : β} (h : kvGet m k = some v) : k ∈ m.map Prod.fst := by
  induction m with
  | nil => simp [kvGet] at h
  | cons hd tl ih =>
    obtain ⟨k', v'⟩ := hd
    by_cases h0 : k' = k
    · simp [h0]
    · simp only [kvGet, if_neg h0] at h
      simp [ih h]

/-- C1: the claim says a self-transfer (`to` equal to the sender) succeeds and
leaves the sender's balance unchanged.  The code disagrees: `transfer_impl`
reads the recipient balance before the sender-side write commits, so the final
write stores the old balance plus the amount.  At the concrete failing input
(balance 1000, self-transfer of 200) the call succeeds but the balance becomes
1200, not 1000. -/
theorem c1_self_transfer_inflates_balance :
    (execute_transfer c1State "0xA" "0xA" 200).2.2 = none ∧
    (kvGet (execute_transfer c1State "0xA" "0xA" 200).1.balances "0xA").getD 0
      = 1200 := by
  decide

/-- C2: the claim says the sum of stored balances always equals the stored
total supply.  After the operation sequence initialize(1000 to 0xA) followed
by the successful self-transfer of 200 by 0xA, the balances sum to 1200 while
total_supply is still 1000, so conservation is violated by the code. -/
theorem c2_conservation_violated :
    (execute_transfer c1State "0xA" "0xA" 200).2.2 = none ∧
    sumBalances (execute_transfer c1State "0xA" "0xA" 200).1.balances = 1200 ∧
    totalSupplyOf (execute_transfer c1State "0xA" "0xA" 200).1 = 1000 := by
  decide

/-- C4: the claim says `transfer_from` succeeds exactly for the recorded
owner, the per-token approved address, or an operator approved by the token's
recorded owner.  The code's `is_approved_for_token` builds the operator key
from the collection metadata owner instead.  Concretely: token 1 is owned by
`0xX`; an operator `0xO` approved by `0xX` is rejected (first conjunct
block), while an operator `0xO2` approved by the collection owner `0xD` —
who is neither the recorded owner, nor token-approved, nor an operator of
`0xX` — transfers the token successfully (second block). -/
theorem c4_operator_check_uses_collection_owner :
    ((Crc721.transfer_from rX1OpX "0xO" "0xX" "0xY" 1).2.2 = false ∧
     (Crc721.transfer_from rX1OpX "0xO" "0xX" "0xY" 1).1 = rX1OpX ∧
     kvGet rX1OpX.operator_approvals ("0xX", "0xO") = some true) ∧
    ((Crc721.transfer_from rX1OpD "0xO2" "0xX" "0xY" 1).2.2 = true ∧
     Crc721.owner_of (Crc721.transfer_from rX1OpD "0xO2" "0xX" "0xY" 1).1 1 = "0xY" ∧
     kvGet rX1OpD.operator_approvals ("0xX", "0xO2") = none ∧
     kvGet rX1OpD.token_approvals 1 = none) := by
  decide

/-- C5: the claim says a burn by the owner `0xZ` decrements `0xZ`'s balance,
clears the token approval and emits a Transfer from the prior owner.  The
code overwrites the owner field with "0x0" before reading "the owner's"
balance, so: (a) in the ordinary state `rZ1Y` the zero address has no balance
entry and `burn` aborts after marking the token burned — the balance stays 1,
the approval stays `0xY`, and no event is emitted; (b) in state `rZeroZ`
where the zero address does have a balance entry, `burn` runs to completion
but decrements the zero address's balance instead of `0xZ`'s. -/
theorem c5_burn_decrements_wrong_balance :
    ((Crc721.burn rZ1Y "0xZ" 1).2.2 = false ∧
     (Crc721.burn rZ1Y "0xZ" 1).2.1 = [] ∧
     Crc721.owner_of (Crc721.burn rZ1Y "0xZ" 1).1 1 = "0x0" ∧
     Crc721.balance_of (Crc721.burn rZ1Y "0xZ" 1).1 "0xZ" = 1 ∧
     Crc721.get_approved (Crc721.burn rZ1Y "0xZ" 1).1 1 = "0xY") ∧
    ((Crc721.burn rZeroZ "0xZ" 1).2.2 = true ∧
     Crc721.balance_of rZeroZ "0xZ" = 1 ∧
     Crc721.balance_of (Crc721.burn rZeroZ "0xZ" 1).1 "0xZ" = 1 ∧
     Crc721.balance_of rZeroZ "0x0" = 1 ∧
     Crc721.balance_of (Crc721.burn rZeroZ "0xZ" 1).1 "0x0" = 0) := by
  decide

/-- C9: the claim says that after a successful `initialize`, every later
`initialize` call fails and leaves the stored metadata unchanged, for both
ledgers.  The registry's `initialize` performs no already-initialized check
(the `initialized` flag it stores is never read), so a second call succeeds
and overwrites the whole metadata record, resetting `total_supply` to 0 and
replacing the owner. -/
theorem c9_registry_reinit_overwrites :
    (Crc721.r_init rBase "0xE" "B" "T" "v").2.2 = true ∧
    rBase.collection =
      some { name := "Punks", symbol := "PK", base_uri := "u/",
             total_supply := 0, owner := "0xD", inited := true } ∧
    (Crc721.r_init rBase "0xE" "B" "T" "v").1.collection =
      some { name := "B", symbol := "T", base_uri := "v",
             total_supply := 0, owner := "0xE", inited := true } := by
  decide

/-- C6: once a token record exists for a token_id, every subsequent `mint`
with that token_id returns with the state completely unchanged and no event;
moreover a successful `mint` leaves a record for the token_id, so mint can
succeed at most once per token_id. -/
theorem c6_mint_at_most_once (s : Crc721.RState) (sender toA : String)
    (tid : Nat) (uri : String) :
    ((kvGet s.tokens tid).isSome = true →
      Crc721.mint s sender toA tid uri = (s, [], false)) ∧
    (∀ s' evs, Crc721.mint s sender toA tid uri = (s', evs, true) →
      (kvGet s'.tokens tid).isSome = true) := by
  constructor
  · intro h
    by_cases h1 : Crc721.is_owner s sender = true
    · simp [Crc721.mint, h1, h]
    · simp [Crc721.mint, h1]
  · intro s' evs hmint
    simp only [Crc721.mint] at hmint
    repeat' split at hmint
    all_goals rw [Prod.mk.injEq, Prod.mk.injEq] at hmint
    all_goals obtain ⟨hA, hB, hC⟩ := hmint
    all_goals
      first
        | exact absurd hC (by decide)
        | (subst hA; simp [kvGet_kvSet_self])

/-- Witness for C6 at a concrete input: token 1 already exists in `rX1`, so a
second mint of token 1 fails and changes nothing. -/
theorem c6_witness :
    Crc721.mint rX1 "0xD" "0xW" 1 "b" = (rX1, [], false) :=
  (c6_mint_at_most_once rX1 "0xD" "0xW" 1 "b").1 (by decide)

/-- C10: `get_approved` reads the stored approval entry and substitutes
"0x0" only when the entry is missing; both `transfer_from` and `burn` clear
an approval by storing the empty string, so a cleared approval reads back as
"" while a never-set approval reads back as "0x0" — two distinct observable
representations of "no approval". -/
theorem c10_two_no_approval_representations (s : Crc721.RState) (tid : Nat)
    (caller fromA toA : String) :
    (kvGet s.token_approvals tid = none → Crc721.get_approved s tid = "0x0") ∧
    (∀ s' evs, Crc721.transfer_from s caller fromA toA tid = (s', evs, true) →
      Crc721.get_approved s' tid = "") ∧
    (∀ s' evs, Crc721.burn s caller tid = (s', evs, true) →
      Crc721.get_approved s' tid = "") := by
  refine ⟨fun h => by simp [Crc721.get_approved, h], ?_, ?_⟩
  · intro s' evs htr
    simp only [Crc721.transfer_from] at htr
    repeat' split at htr
    all_goals rw [Prod.mk.injEq, Prod.mk.injEq] at htr
    all_goals obtain ⟨hA, hB, hC⟩ := htr
    all_goals
      first
        | exact absurd hC (by decide)
        | (subst hA; simp [Crc721.get_approved, kvGet_kvSet_self])
  · intro s' evs hbr
    simp only [Crc721.burn] at hbr
    repeat' split at hbr
    all_goals rw [Prod.mk.injEq, Prod.mk.injEq] at hbr
    all_goals obtain ⟨hA, hB, hC⟩ := hbr
    all_goals
      first
        | exact absurd hC (by decide)
        | (subst hA; simp [Crc721.get_approved, kvGet_kvSet_self])

/-- Witness for C10 at concrete inputs: in the empty store the approval of
token 1 reads "0x0"; after the owner `0xX` transfers token 1 in `rX1` the
approval reads ""; after the completing burn in `rZeroZ` it also reads "". -/
theorem c10_witness :
    Crc721.get_approved Crc721.emptyR 1 = "0x0" ∧
    Crc721.get_approved (Crc721.transfer_from rX1 "0xX" "0xX" "0xY" 1).1 1 = "" ∧
    Crc721.get_approved (Crc721.burn rZeroZ "0xZ" 1).1 1 = "" := by
  refine ⟨(c10_two_no_approval_representations Crc721.emptyR 1 "c" "f" "t").1 (by decide),
    (c10_two_no_approval_representations rX1 1 "0xX" "0xX" "0xY").2.1
      (Crc721.transfer_from rX1 "0xX" "0xX" "0xY" 1).1
      (Crc721.transfer_from rX1 "0xX" "0xX" "0xY" 1).2.1 (by decide),
    (c10_two_no_approval_representations rZeroZ 1 "0xZ" "f" "t").2.2
      (Crc721.burn rZeroZ "0xZ" 1).1
      (Crc721.burn rZeroZ "0xZ" 1).2.1 (by decide)⟩

/-- `transfer_impl` only touches the balances map: on success the metadata and
the allowances are the ones of the input state. -/
theorem transfer_impl_ok_allowances (s s1 : CState) (fromA toA : String)
    (amount : Nat) (h : transfer_impl s fromA toA amount = .ok s1) :
    s1.allowances = s.allowances ∧ s1.metadata = s.metadata := by
  simp only [transfer_impl] at h
  repeat' split at h
  all_goals first
    | exact Except.noConfusion h
    | (obtain rfl := Except.ok.inj h; exact ⟨rfl, rfl⟩)

/-- C7: `approve` overwrites the stored allowance with exactly the requested
amount (for non-empty addresses, which otherwise hit the source's asserts, on
an initialized ledger); `transfer_from` fails with InsufficientBalance
carrying the allowance when the allowance is below the amount; and a
successful `transfer_from` stores exactly the old allowance minus the
amount. -/
theorem c7_allowance_set_check_decrement (s : CState)
    (sender spender fromA toA caller : String) (n amount : Nat) :
    (s.metadata.isSome = true → sender ≠ "" → spender ≠ "" →
      (execute_approve s sender spender n).2.2 = none ∧
      (kvGet (execute_approve s sender spender n).1.allowances
        (sender, spender)).getD 0 = n) ∧
    (s.metadata.isSome = true → fromA ≠ "" → caller ≠ "" →
      (kvGet s.allowances (fromA, caller)).getD 0 < amount →
      execute_transfer_from s caller fromA toA amount =
        (s, [], some (.insufficientBalance amount
          ((kvGet s.allowances (fromA, caller)).getD 0)))) ∧
    (∀ s' evs, execute_transfer_from s caller fromA toA amount = (s', evs, none) →
      (kvGet s'.allowances (fromA, caller)).getD 0 =
        (kvGet s.allowances (fromA, caller)).getD 0 - amount) := by
  refine ⟨?_, ?_, ?_⟩
  · intro hmd hs hsp
    have hmd' : s.metadata.isNone = false := by
      cases hm : s.metadata with
      | none => rw [hm] at hmd; simp at hmd
      | some md => simp [hm]
    simp [execute_approve, hmd', hs, hsp, kvGet_kvSet_self]
  · intro hmd hf hc hlt
    have hmd' : s.metadata.isNone = false := by
      cases hm : s.metadata with
      | none => rw [hm] at hmd; simp at hmd
      | some md => simp [hm]
    have hamt : ¬ amount = 0 := by omega
    simp [execute_transfer_from, hmd', hf, hc, hamt, hlt]
  · intro s' evs htf
    simp only [execute_transfer_from] at htf
    repeat' split at htf
    all_goals rw [Prod.mk.injEq, Prod.mk.injEq] at htf
    all_goals obtain ⟨hA, hB, hC⟩ := htf
    all_goals try exact Option.noConfusion hC
    rename_i x1 s1 htri x2 nal hsub
    subst hA
    have hall := (transfer_impl_ok_allowances s s1 fromA toA amount htri).1
    simp only [safeSub] at hsub
    split at hsub
    · obtain rfl := Except.ok.inj hsub
      simp [hall, kvGet_kvSet_self]
    · exact Except.noConfusion hsub

/-- Witness for C7 at concrete inputs: approve overwrites 5 with 7; a
transfer_from of 9 fails with InsufficientBalance(9, 5) and no state change;
a transfer_from of 3 leaves allowance 5 - 3. -/
theorem c7_witness :
    ((execute_approve c7S "0xA" "0xC" 7).2.2 = none ∧
     (kvGet (execute_approve c7S "0xA" "0xC" 7).1.allowances
       ("0xA", "0xC")).getD 0 = 7) ∧
    (execute_transfer_from c7S "0xC" "0xA" "0xB" 9 =
      (c7S, [], some (.insufficientBalance 9
        ((kvGet c7S.allowances ("0xA", "0xC")).getD 0)))) ∧
    ((kvGet (execute_transfer_from c7S "0xC" "0xA" "0xB" 3).1.allowances
       ("0xA", "0xC")).getD 0 =
      (kvGet c7S.allowances ("0xA", "0xC")).getD 0 - 3) :=
  ⟨(c7_allowance_set_check_decrement c7S "0xA" "0xC" "f" "t" "c" 7 0).1
      (by decide) (by decide) (by decide),
   (c7_allowance_set_check_decrement c7S "x" "y" "0xA" "0xB" "0xC" 0 9).2.1
      (by decide) (by decide) (by decide) (by decide),
   (c7_allowance_set_check_decrement c7S "x" "y" "0xA" "0xB" "0xC" 0 3).2.2
      (execute_transfer_from c7S "0xC" "0xA" "0xB" 3).1
      (execute_transfer_from c7S "0xC" "0xA" "0xB" 3).2.1 (by decide)⟩

/-- A failed `execute_initialize` leaves the state unchanged and emits no
event. -/
theorem execute_init_fail (s : CState) (sender nm sym : String)
    (dec supply : Nat) (s' : CState) (evs : List CEvent) (e : CErr)
    (h : execute_init s sender nm sym dec supply = (s', evs, some e)) :
    s' = s ∧ evs = [] := by
  simp only [execute_init] at h
  repeat' split at h
  all_goals rw [Prod.mk.injEq, Prod.mk.injEq] at h
  all_goals obtain ⟨hA, hB, hC⟩ := h
  all_goals first
    | exact Option.noConfusion hC
    | exact ⟨hA.symm, hB.symm⟩

/-- A failed `execute_transfer` leaves the state unchanged and emits no
event. -/
theorem execute_transfer_fail (s : CState) (sender toA : String)
    (amount : Nat) (s' : CState) (evs : List CEvent) (e : CErr)
    (h : execute_transfer s sender toA amount = (s', evs, some e)) :
    s' = s ∧ evs = [] := by
  simp only [execute_transfer] at h
  repeat' split at h
  all_goals rw [Prod.mk.injEq, Prod.mk.injEq] at h
  all_goals obtain ⟨hA, hB, hC⟩ := h
  all_goals first
    | exact Option.noConfusion hC
    | exact ⟨hA.symm, hB.symm⟩

/-- A failed `execute_approve` leaves the state unchanged and emits no
event. -/
theorem execute_approve_fail (s : CState) (sender spender : String)
    (amount : Nat) (s' : CState) (evs : List CEvent) (e : CErr)
    (h : execute_approve s sender spender amount = (s', evs, some e)) :
    s' = s ∧ evs = [] := by
  simp only [execute_approve] at h
  repeat' split at h
  all_goals rw [Prod.mk.injEq, Prod.mk.injEq] at h
  all_goals obtain ⟨hA, hB, hC⟩ := h
  all_goals first
    | exact Option.noConfusion hC
    | exact ⟨hA.symm, hB.symm⟩

/-- A failed `execute_transfer_from` leaves the state unchanged and emits no
event (the allowance decrement cannot underflow since the allowance was
checked). -/
theorem execute_transfer_from_fail (s : CState) (sender fromA toA : String)
    (amount : Nat) (s' : CState) (evs : List CEvent) (e : CErr)
    (h : execute_transfer_from s sender fromA toA amount = (s', evs, some e)) :
    s' = s ∧ evs = [] := by
  simp only [execute_transfer_from] at h
  repeat' split at h
  all_goals rw [Prod.mk.injEq, Prod.mk.injEq] at h
  all_goals obtain ⟨hA, hB, hC⟩ := h
  all_goals try exact Option.noConfusion hC
  all_goals try exact ⟨hA.symm, hB.symm⟩
  rename_i hge x1 s1 htri x2 e2 hsub
  exfalso
  simp only [safeSub] at hsub
  rw [if_pos (by omega)] at hsub
  exact Except.noConfusion hsub

/-- A failed `execute_mint` with a non-empty recipient and no
recipient-balance overflow leaves the state unchanged and emits no event. -/
theorem execute_mint_fail (s : CState) (sender toA : String) (amount : Nat)
    (s' : CState) (evs : List CEvent) (e : CErr) (h1 : toA ≠ "")
    (h2 : (kvGet s.balances toA).getD 0 + amount < U64)
    (h : execute_mint s sender toA amount = (s', evs, some e)) :
    s' = s ∧ evs = [] := by
  simp only [execute_mint] at h
  repeat' split at h
  all_goals rw [Prod.mk.injEq, Prod.mk.injEq] at h
  all_goals obtain ⟨hA, hB, hC⟩ := h
  all_goals try exact Option.noConfusion hC
  all_goals try exact ⟨hA.symm, hB.symm⟩
  all_goals exfalso
  all_goals
    rename_i x2 e2 hsub
    simp only [safeAdd] at hsub
    rw [if_pos h2] at hsub
    exact Except.noConfusion hsub

/-- A failed registry `initialize` leaves the state unchanged and emits no
event. -/
theorem r_init_fail (s : Crc721.RState) (sender nm sym bu : String)
    (s' : Crc721.RState) (evs : List Crc721.REvent)
    (h : Crc721.r_init s sender nm sym bu = (s', evs, false)) :
    s' = s ∧ evs = [] := by
  simp only [Crc721.r_init] at h
  repeat' split at h
  all_goals rw [Prod.mk.injEq, Prod.mk.injEq] at h
  all_goals obtain ⟨hA, hB, hC⟩ := h
  all_goals first
    | exact Bool.noConfusion hC
    | exact ⟨hA.symm, hB.symm⟩

/-- A failed registry `mint` leaves the state unchanged and emits no event
(the late metadata-reload branch cannot fail because the owner check already
required the metadata to exist). -/
theorem r_mint_fail (s : Crc721.RState) (sender toA : String) (tid : Nat)
    (uri : String) (s' : Crc721.RState) (evs : List Crc721.REvent)
    (h : Crc721.mint s sender toA tid uri = (s', evs, false)) :
    s' = s ∧ evs = [] := by
  simp only [Crc721.mint] at h
  repeat' split at h
  all_goals rw [Prod.mk.injEq, Prod.mk.injEq] at h
  all_goals obtain ⟨hA, hB, hC⟩ := h
  all_goals try exact Bool.noConfusion hC
  all_goals try exact ⟨hA.symm, hB.symm⟩
  all_goals exfalso
  all_goals simp_all [Crc721.is_owner]

/-- A failed registry `approve` leaves the state unchanged and emits no
event. -/
theorem r_approve_fail (s : Crc721.RState) (sender toA : String) (tid : Nat)
    (s' : Crc721.RState) (evs : List Crc721.REvent)
    (h : Crc721.approve s sender toA tid = (s', evs, false)) :
    s' = s ∧ evs = [] := by
  simp only [Crc721.approve] at h
  repeat' split at h
  all_goals rw [Prod.mk.injEq, Prod.mk.injEq] at h
  all_goals obtain ⟨hA, hB, hC⟩ := h
  all_goals first
    | exact Bool.noConfusion hC
    | exact ⟨hA.symm, hB.symm⟩

/-- A failed registry `set_approval_for_all` leaves the state unchanged and
emits no event. -/
theorem r_set_approval_fail (s : Crc721.RState) (sender oper : String)
    (approved : Bool) (s' : Crc721.RState) (evs : List Crc721.REvent)
    (h : Crc721.set_approval_for_all s sender oper approved = (s', evs, false)) :
    s' = s ∧ evs = [] := by
  simp only [Crc721.set_approval_for_all] at h
  repeat' split at h
  all_goals rw [Prod.mk.injEq, Prod.mk.injEq] at h
  all_goals obtain ⟨hA, hB, hC⟩ := h
  all_goals first
    | exact Bool.noConfusion hC
    | exact ⟨hA.symm, hB.symm⟩

/-- C3 counterexample: in state `rZ1Y` (token 1 owned by `0xZ`, approved for
`0xY`), `burn` by the owner fails — it logs "Owner balance not found" and
returns early, emitting no event — yet the token record has already been
overwritten with `burned := true, owner := "0x0"`, so a failed state-changing
call does not leave every stored map unchanged. -/
theorem c3_counterexample_failed_burn_mutates :
    (Crc721.burn rZ1Y "0xZ" 1).2.2 = false ∧
    (Crc721.burn rZ1Y "0xZ" 1).2.1 = [] ∧
    (Crc721.burn rZ1Y "0xZ" 1).1 ≠ rZ1Y ∧
    kvGet (Crc721.burn rZ1Y "0xZ" 1).1.tokens 1 =
      some { token_id := 1, owner := "0x0", metadata_uri := "a", burned := true } ∧
    kvGet rZ1Y.tokens 1 =
      some { token_id := 1, owner := "0xZ", metadata_uri := "a", burned := false } := by
  decide

/-- C3 amended: for the fungible ledger's initialize, transfer, approve and
transfer_from on every state, for fungible mint whenever the recipient is a
non-empty address and its balance plus the amount fits in u64, and for the
registry's initialize, mint, approve and set_approval_for_all on every state:
a failed call leaves every stored map and metadata entry equal to its value
before the call and emits no event.  (The registry's transfer_from,
safe_transfer_from and burn are excluded: they can fail after partial
writes.) -/
theorem c3_failed_calls_leave_state_unchanged (c : DCall) (p : DState)
    (h : dcallOk c p) :
    (runDCall c p).2.2 = false →
    (runDCall c p).1 = p ∧ (runDCall c p).2.1 = ([], []) := by
  intro hfail
  cases c with
  | fInitCall sender nm sym dec supply =>
    simp only [runDCall] at hfail ⊢
    cases hopt : (execute_init p.1 sender nm sym dec supply).2.2 with
    | none => rw [hopt] at hfail; simp at hfail
    | some e =>
      obtain ⟨hA, hB⟩ := execute_init_fail _ _ _ _ _ _ _ _ _ (by rw [← hopt])
      simp [hA, hB]
  | fTransfer sender toA amount =>
    simp only [runDCall] at hfail ⊢
    cases hopt : (execute_transfer p.1 sender toA amount).2.2 with
    | none => rw [hopt] at hfail; simp at hfail
    | some e =>
      obtain ⟨hA, hB⟩ := execute_transfer_fail _ _ _ _ _ _ _ (by rw [← hopt])
      simp [hA, hB]
  | fApprove sender spender amount =>
    simp only [runDCall] at hfail ⊢
    cases hopt : (execute_approve p.1 sender spender amount).2.2 with
    | none => rw [hopt] at hfail; simp at hfail
    | some e =>
      obtain ⟨hA, hB⟩ := execute_approve_fail _ _ _ _ _ _ _ (by rw [← hopt])
      simp [hA, hB]
  | fTransferFrom sender fromA toA amount =>
    simp only [runDCall] at hfail ⊢
    cases hopt : (execute_transfer_from p.1 sender fromA toA amount).2.2 with
    | none => rw [hopt] at hfail; simp at hfail
    | some e =>
      obtain ⟨hA, hB⟩ := execute_transfer_from_fail _ _ _ _ _ _ _ _ (by rw [← hopt])
      simp [hA, hB]
  | fMint sender toA amount =>
    simp only [runDCall] at hfail ⊢
    obtain ⟨h1, h2⟩ := h
    cases hopt : (execute_mint p.1 sender toA amount).2.2 with
    | none => rw [hopt] at hfail; simp at hfail
    | some e =>
      obtain ⟨hA, hB⟩ := execute_mint_fail _ _ _ _ _ _ _ h1 h2 (by rw [← hopt])
      simp [hA, hB]
  | rInitCall sender nm sym bu =>
    simp only [runDCall] at hfail ⊢
    obtain ⟨hA, hB⟩ := r_init_fail _ _ _ _ _ _ _ (by rw [← hfail])
    simp [hA, hB]
  | rMint sender toA tid uri =>
    simp only [runDCall] at hfail ⊢
    obtain ⟨hA, hB⟩ := r_mint_fail _ _ _ _ _ _ _ (by rw [← hfail])
    simp [hA, hB]
  | rApprove sender toA tid =>
    simp only [runDCall] at hfail ⊢
    obtain ⟨hA, hB⟩ := r_approve_fail _ _ _ _ _ _ (by rw [← hfail])
    simp [hA, hB]
  | rSetApprovalForAll sender oper approved =>
    simp only [runDCall] at hfail ⊢
    obtain ⟨hA, hB⟩ := r_set_approval_fail _ _ _ _ _ _ (by rw [← hfail])
    simp [hA, hB]

/-- Witness for the amended C3 at a concrete input: a registry mint by a
non-owner on the fresh pair of stores fails and changes nothing. -/
theorem c3_witness :
    (runDCall (.rMint "0xM" "0xX" 1 "a") (emptyC, Crc721.emptyR)).1 =
      (emptyC, Crc721.emptyR) ∧
    (runDCall (.rMint "0xM" "0xX" 1 "a") (emptyC, Crc721.emptyR)).2.1 =
      ([], []) :=
  c3_failed_calls_leave_state_unchanged (.rMint "0xM" "0xX" 1 "a")
    (emptyC, Crc721.emptyR) trivial (by decide)

/-- `is_owner` requires the collection metadata to exist. -/
theorem is_owner_some (s : Crc721.RState) (sender : String)
    (h : Crc721.is_owner s sender = true) : ∃ m, s.collection = some m := by
  unfold Crc721.is_owner at h
  cases hc : s.collection with
  | none => rw [hc] at h; exact Bool.noConfusion h
  | some m => exact ⟨m, rfl⟩

/-- Field-level characterization of a `mint` whose guards all pass. -/
theorem mint_fields (s : Crc721.RState) (sender toA : String) (tid : Nat)
    (uri : String) (h1 : Crc721.is_owner s sender = true) (h2 : toA ≠ "")
    (h3 : uri ≠ "") (h4 : kvGet s.tokens tid = none) :
    ((Crc721.mint s sender toA tid uri).1).tokens =
      kvSet s.tokens tid
        { token_id := tid, owner := toA, metadata_uri := uri, burned := false } ∧
    ((Crc721.mint s sender toA tid uri).1).balances =
      kvSet s.balances toA
        (if (kvGet s.balances toA).getD 0 + 1 < U64 then
          (kvGet s.balances toA).getD 0 + 1 else 0) ∧
    ((Crc721.mint s sender toA tid uri).1).owner_tokens =
      kvSet s.owner_tokens toA (((kvGet s.owner_tokens toA).getD []) ++ [tid]) := by
  obtain ⟨m, hm⟩ := is_owner_some s sender h1
  simp [Crc721.mint, h1, h2, h3, h4, hm]

/-- Field-level characterization of a `transfer_from` whose guards all pass.
`b1` and `o1` name the intermediate balances and owner-index maps. -/
theorem transfer_from_fields (s : Crc721.RState) (caller fromA toA : String)
    (tid : Nat) (t : Crc721.TokenInfo) (h1 : ¬ (fromA = "" ∨ toA = ""))
    (ht : kvGet s.tokens tid = some t) (h2 : t.owner = fromA)
    (h3 : ¬ (t.owner ≠ caller ∧ ¬ Crc721.is_approved_for_token s tid caller))
    (h4 : (kvGet s.balances fromA).getD 0 ≠ 0) :
    ((Crc721.transfer_from s caller fromA toA tid).1).tokens =
      kvSet s.tokens tid { t with owner := toA } ∧
    ((Crc721.transfer_from s caller fromA toA tid).1).balances =
      (kvSet (kvSet s.balances fromA ((kvGet s.balances fromA).getD 0 - 1)) toA
        (if (kvGet (kvSet s.balances fromA ((kvGet s.balances fromA).getD 0 - 1))
              toA).getD 0 + 1 < U64 then
          (kvGet (kvSet s.balances fromA ((kvGet s.balances fromA).getD 0 - 1))
            toA).getD 0 + 1
        else 0)) ∧
    ((Crc721.transfer_from s caller fromA toA tid).1).owner_tokens =
      (kvSet (kvSet s.owner_tokens fromA
          (((kvGet s.owner_tokens fromA).getD []).erase tid)) toA
        (((kvGet (kvSet s.owner_tokens fromA
            (((kvGet s.owner_tokens fromA).getD []).erase tid)) toA).getD [])
          ++ [tid])) := by
  have h2' : ¬ t.owner ≠ fromA := by simp [h2]
  have h3' : ¬ (¬ t.owner = caller ∧
      Crc721.is_approved_for_token s tid caller = false) := by
    intro hx
    exact h3 ⟨hx.1, by simp [hx.2]⟩
  simp [Crc721.transfer_from, h1, ht, h2', h3', h4]

/-- A nodup per-owner sequence whose members all have token records is no
longer than the token map. -/
theorem ownerList_length_le (s : Crc721.RState) (h : C8Prop s) (a : String) :
    (ownerList s a).length ≤ s.tokens.length := by
  have hnd := (h a).1
  have hsub : ownerList s a ⊆ s.tokens.map Prod.fst := by
    intro x hx
    have hb := ((h a).2 x).mp hx
    unfold ownedBy at hb
    cases ht : kvGet s.tokens x with
    | none => rw [ht] at hb; exact Bool.noConfusion hb
    | some t => exact mem_keys_of_kvGet ht
  have hlen := (List.subperm_of_subset hnd hsub).length_le
  simpa using hlen

/-- `mint` preserves the C8 inductive invariant (given room for one more
token) and grows the token map by at most one entry. -/
theorem rinv_mint (s : Crc721.RState) (sender toA : String) (tid : Nat)
    (uri : String) (hinv : RInv s) (hb : s.tokens.length + 1 < U64) :
    RInv (Crc721.mint s sender toA tid uri).1 ∧
    ((Crc721.mint s sender toA tid uri).1).tokens.length ≤ s.tokens.length + 1 := by
  obtain ⟨hC8, hBal, hNB⟩ := hinv
  by_cases h1 : Crc721.is_owner s sender = true
  · by_cases h2 : toA = ""
    · have he : (Crc721.mint s sender toA tid uri).1 = s := by
        simp [Crc721.mint, h1, h2]
      rw [he]; exact ⟨⟨hC8, hBal, hNB⟩, Nat.le_succ _⟩
    by_cases h3 : uri = ""
    · have he : (Crc721.mint s sender toA tid uri).1 = s := by
        simp [Crc721.mint, h1, h2, h3]
      rw [he]; exact ⟨⟨hC8, hBal, hNB⟩, Nat.le_succ _⟩
    cases h4 : kvGet s.tokens tid with
    | some t0 =>
      have he : (Crc721.mint s sender toA tid uri).1 = s := by
        simp [Crc721.mint, h1, h2, h3, h4]
      rw [he]; exact ⟨⟨hC8, hBal, hNB⟩, Nat.le_succ _⟩
    | none =>
      obtain ⟨hT, hB, hO⟩ := mint_fields s sender toA tid uri h1 h2 h3 h4
      have hcur : (kvGet s.balances toA).getD 0 = (ownerList s toA).length :=
        hBal toA
      have hlt : (kvGet s.balances toA).getD 0 + 1 < U64 := by
        have := ownerList_length_le s hC8 toA
        omega
      rw [if_pos hlt] at hB
      have htid_not : ∀ a, tid ∉ ownerList s a := by
        intro a hmem
        have hob := ((hC8 a).2 tid).mp hmem
        unfold ownedBy at hob
        rw [h4] at hob
        exact Bool.noConfusion hob
      have hOL : ∀ a, ownerList (Crc721.mint s sender toA tid uri).1 a =
          if a = toA then ownerList s toA ++ [tid] else ownerList s a := by
        intro a
        unfold ownerList
        rw [hO]
        by_cases ha : a = toA
        · subst ha; rw [if_pos rfl, kvGet_kvSet_self]; rfl
        · rw [if_neg ha, kvGet_kvSet_ne _ _ ha]
      have hOB : ∀ a x, ownedBy (Crc721.mint s sender toA tid uri).1 a x =
          if x = tid then (toA == a) else ownedBy s a x := by
        intro a x
        unfold ownedBy
        rw [hT]
        by_cases hx : x = tid
        · subst hx; rw [kvGet_kvSet_self, if_pos rfl]; simp
        · rw [kvGet_kvSet_ne _ _ hx, if_neg hx]
      have hBL : ∀ a,
          (kvGet ((Crc721.mint s sender toA tid uri).1).balances a).getD 0 =
          if a = toA then (ownerList s toA).length + 1
          else (kvGet s.balances a).getD 0 := by
        intro a
        rw [hB]
        by_cases ha : a = toA
        · subst ha; rw [kvGet_kvSet_self, if_pos rfl]; simp [hcur]
        · rw [kvGet_kvSet_ne _ _ ha, if_neg ha]
      refine ⟨⟨fun a => ⟨?_, fun x => ?_⟩, fun a => ?_, fun x tx hx => ?_⟩, ?_⟩
      · rw [hOL a]
        by_cases ha : a = toA
        · rw [if_pos ha]
          simp [List.nodup_append, (hC8 toA).1, htid_not toA]
        · rw [if_neg ha]; exact (hC8 a).1
      · rw [hOL a, hOB a x]
        by_cases hx : x = tid
        · rw [if_pos hx, hx]
          by_cases ha : a = toA
          · rw [if_pos ha, ha]
            simp
          · rw [if_neg ha]
            simp [htid_not a, Ne.symm ha]
        · rw [if_neg hx]
          by_cases ha : a = toA
          · rw [if_pos ha, ha]
            rw [List.mem_append, List.mem_singleton]
            simp only [hx, or_false]
            exact (hC8 toA).2 x
          · rw [if_neg ha]; exact (hC8 a).2 x
      · rw [hBL a, hOL a]
        by_cases ha : a = toA
        · rw [if_pos ha, if_pos ha]
          simp
        · rw [if_neg ha, if_neg ha]; exact hBal a
      · rw [hT] at hx
        by_cases hxe : x = tid
        · subst hxe
          rw [kvGet_kvSet_self] at hx
          obtain rfl := Option.some.inj hx
          rfl
        · rw [kvGet_kvSet_ne _ _ hxe] at hx
          exact hNB x tx hx
      · rw [hT]; exact length_kvSet_le _ _ _
  · have he : (Crc721.mint s sender toA tid uri).1 = s := by
      simp [Crc721.mint, h1]
    rw [he]; exact ⟨⟨hC8, hBal, hNB⟩, Nat.le_succ _⟩

/-- `transfer_from` preserves the C8 inductive invariant (given room in the
u64 balance counters) and does not grow the token map by more than one
entry.  Under the invariant the zero-balance early-return branch is
unreachable, so no partial write happens. -/
theorem rinv_transfer (s : Crc721.RState) (caller fromA toA : String)
    (tid : Nat) (hinv : RInv s) (hb : s.tokens.length + 1 < U64) :
    RInv (Crc721.transfer_from s caller fromA toA tid).1 ∧
    ((Crc721.transfer_from s caller fromA toA tid).1).tokens.length ≤
      s.tokens.length + 1 := by
  obtain ⟨hC8, hBal, hNB⟩ := hinv
  by_cases h1 : fromA = "" ∨ toA = ""
  · have he : (Crc721.transfer_from s caller fromA toA tid).1 = s := by
      simp [Crc721.transfer_from, h1]
    rw [he]; exact ⟨⟨hC8, hBal, hNB⟩, Nat.le_succ _⟩
  cases ht : kvGet s.tokens tid with
  | none =>
    have he : (Crc721.transfer_from s caller fromA toA tid).1 = s := by
      simp [Crc721.transfer_from, h1, ht]
    rw [he]; exact ⟨⟨hC8, hBal, hNB⟩, Nat.le_succ _⟩
  | some t =>
    by_cases h2 : t.owner = fromA
    case neg =>
      have he : (Crc721.transfer_from s caller fromA toA tid).1 = s := by
        simp [Crc721.transfer_from, h1, ht, h2]
      rw [he]; exact ⟨⟨hC8, hBal, hNB⟩, Nat.le_succ _⟩
    case pos =>
    by_cases h3 : t.owner ≠ caller ∧
        ¬ Crc721.is_approved_for_token s tid caller = true
    case pos =>
      obtain ⟨h3a, h3b⟩ := h3
      have h3b' : Crc721.is_approved_for_token s tid caller = false := by
        cases hx : Crc721.is_approved_for_token s tid caller
        · rfl
        · exact absurd hx h3b
      have hfc : ¬ (fromA = caller) := h2 ▸ h3a
      have he : (Crc721.transfer_from s caller fromA toA tid).1 = s := by
        simp [Crc721.transfer_from, h1, ht, h2, h3a, h3b', hfc]
      rw [he]; exact ⟨⟨hC8, hBal, hNB⟩, Nat.le_succ _⟩
    case neg =>
      have hburn : t.burned = false := hNB tid t ht
      have hmem : tid ∈ ownerList s fromA := by
        refine ((hC8 fromA).2 tid).mpr ?_
        simp [ownedBy, ht, h2, hburn]
      have h4 : (kvGet s.balances fromA).getD 0 ≠ 0 := by
        rw [hBal fromA]
        intro h0
        rw [List.length_eq_zero] at h0
        rw [h0] at hmem
        simp at hmem
      obtain ⟨hT, hB, hO⟩ :=
        transfer_from_fields s caller fromA toA tid t h1 ht h2 h3 h4
      have hfb : (kvGet s.balances fromA).getD 0 = (ownerList s fromA).length :=
        hBal fromA
      have hea := List.length_erase_add_one hmem
      have htb : ∀ a : String,
          (kvGet (kvSet s.balances fromA
            ((kvGet s.balances fromA).getD 0 - 1)) a).getD 0 =
          if a = fromA then (kvGet s.balances fromA).getD 0 - 1
          else (kvGet s.balances a).getD 0 := by
        intro a
        by_cases ha : a = fromA
        · rw [if_pos ha, ha, kvGet_kvSet_self]; rfl
        · rw [if_neg ha, kvGet_kvSet_ne _ _ ha]
      have hlt : (kvGet (kvSet s.balances fromA
          ((kvGet s.balances fromA).getD 0 - 1)) toA).getD 0 + 1 < U64 := by
        rw [htb toA]
        by_cases hft : toA = fromA
        · rw [if_pos hft]
          have hle := ownerList_length_le s hC8 fromA
          omega
        · rw [if_neg hft, hBal toA]
          have hle := ownerList_length_le s hC8 toA
          omega
      rw [if_pos hlt, htb toA] at hB
      have htid_not : ∀ a, a ≠ fromA → tid ∉ ownerList s a := by
        intro a hne hmem'
        have hob := ((hC8 a).2 tid).mp hmem'
        unfold ownedBy at hob
        rw [ht] at hob
        simp only [Bool.and_eq_true, beq_iff_eq] at hob
        exact hne (h2.symm.trans hob.1).symm
      have hOL : ∀ a, ownerList (Crc721.transfer_from s caller fromA toA tid).1 a =
          if a = toA then
            (if toA = fromA then (ownerList s fromA).erase tid
             else ownerList s toA) ++ [tid]
          else if a = fromA then (ownerList s fromA).erase tid
          else ownerList s a := by
        intro a
        unfold ownerList
        rw [hO]
        by_cases ha : a = toA
        · rw [if_pos ha, ha, kvGet_kvSet_self, Option.getD_some]
          congr 1
          by_cases hft : toA = fromA
          · rw [if_pos hft, hft, kvGet_kvSet_self]; rfl
          · rw [if_neg hft, kvGet_kvSet_ne _ _ hft]
        · rw [if_neg ha, kvGet_kvSet_ne _ _ ha]
          by_cases haf : a = fromA
          · rw [if_pos haf, haf, kvGet_kvSet_self]; rfl
          · rw [if_neg haf, kvGet_kvSet_ne _ _ haf]
      have hOB : ∀ a x, ownedBy (Crc721.transfer_from s caller fromA toA tid).1 a x =
          if x = tid then (toA == a) else ownedBy s a x := by
        intro a x
        unfold ownedBy
        rw [hT]
        by_cases hx : x = tid
        · rw [hx, kvGet_kvSet_self, if_pos rfl]
          simp [hburn]
        · rw [kvGet_kvSet_ne _ _ hx, if_neg hx]
      have hBL : ∀ a,
          (kvGet ((Crc721.transfer_from s caller fromA toA tid).1).balances a).getD 0 =
          if a = toA then
            (if toA = fromA then (kvGet s.balances fromA).getD 0 - 1
             else (kvGet s.balances toA).getD 0) + 1
          else if a = fromA then (kvGet s.balances fromA).getD 0 - 1
          else (kvGet s.balances a).getD 0 := by
        intro a
        rw [hB]
        by_cases ha : a = toA
        · rw [if_pos ha, ha, kvGet_kvSet_self]; rfl
        · rw [if_neg ha, kvGet_kvSet_ne _ _ ha, htb a]
      refine ⟨⟨fun a => ⟨?_, fun x => ?_⟩, fun a => ?_, fun x tx hx => ?_⟩, ?_⟩
      · rw [hOL a]
        by_cases ha : a = toA
        · rw [if_pos ha]
          by_cases hft : toA = fromA
          · rw [if_pos hft]
            simp only [List.nodup_append, List.nodup_singleton, true_and,
              List.disjoint_singleton]
            exact ⟨(hC8 fromA).1.erase _, (hC8 fromA).1.not_mem_erase⟩
          · rw [if_neg hft]
            simp only [List.nodup_append, List.nodup_singleton, true_and,
              List.disjoint_singleton]
            exact ⟨(hC8 toA).1, htid_not toA hft⟩
        · rw [if_neg ha]
          by_cases haf : a = fromA
          · rw [if_pos haf]
            exact (hC8 fromA).1.erase _
          · rw [if_neg haf]
            exact (hC8 a).1
      · rw [hOL a, hOB a x]
        by_cases hx : x = tid
        · rw [if_pos hx, hx]
          by_cases ha : a = toA
          · rw [if_pos ha, ha]
            simp
          · rw [if_neg ha]
            by_cases haf : a = fromA
            · rw [if_pos haf]
              simp [(hC8 fromA).1.not_mem_erase, Ne.symm ha]
            · rw [if_neg haf]
              simp [htid_not a haf, Ne.symm ha]
        · rw [if_neg hx]
          by_cases ha : a = toA
          · rw [if_pos ha, ha]
            rw [List.mem_append, List.mem_singleton]
            simp only [hx, or_false]
            by_cases hft : toA = fromA
            · rw [if_pos hft, hft, (hC8 fromA).1.mem_erase_iff]
              simp only [hx, ne_eq, not_false_eq_true, true_and]
              exact (hC8 fromA).2 x
            · rw [if_neg hft]
              exact (hC8 toA).2 x
          · rw [if_neg ha]
            by_cases haf : a = fromA
            · rw [if_pos haf, haf, (hC8 fromA).1.mem_erase_iff]
              simp only [hx, ne_eq, not_false_eq_true, true_and]
              exact (hC8 fromA).2 x
            · rw [if_neg haf]
              exact (hC8 a).2 x
      · rw [hBL a, hOL a]
        by_cases ha : a = toA
        · rw [if_pos ha, if_pos ha]
          by_cases hft : toA = fromA
          · rw [if_pos hft, if_pos hft]
            simp only [List.length_append, List.length_singleton]
            omega
          · rw [if_neg hft, if_neg hft]
            simp only [List.length_append, List.length_singleton, hBal toA]
        · rw [if_neg ha, if_neg ha]
          by_cases haf : a = fromA
          · rw [if_pos haf, if_pos haf]
            omega
          · rw [if_neg haf, if_neg haf]
            exact hBal a
      · rw [hT] at hx
        by_cases hxe : x = tid
        · rw [hxe, kvGet_kvSet_self] at hx
          obtain rfl := Option.some.inj hx
          exact hburn
        · rw [kvGet_kvSet_ne _ _ hxe] at hx
          exact hNB x tx hx
      · rw [hT]; exact length_kvSet_le _ _ _

/-- Any single covered operation preserves the invariant. -/
theorem rinv_step (s : Crc721.RState) (op : ROp) (hinv : RInv s)
    (hb : s.tokens.length + 1 < U64) :
    RInv (runROp s op) ∧ (runROp s op).tokens.length ≤ s.tokens.length + 1 := by
  cases op with
  | mintOp sender toA tid uri => exact rinv_mint s sender toA tid uri hinv hb
  | transferOp caller fromA toA tid =>
    exact rinv_transfer s caller fromA toA tid hinv hb
  | safeTransferOp caller fromA toA tid data =>
    exact rinv_transfer s caller fromA toA tid hinv hb

/-- The invariant is preserved along any operation sequence short enough that
no u64 balance counter can overflow. -/
theorem rinv_run (ops : List ROp) (s : Crc721.RState) (hinv : RInv s)
    (hb : s.tokens.length + ops.length < U64) : RInv (runROps s ops) := by
  induction ops generalizing s with
  | nil => exact hinv
  | cons op rest ih =>
    have hb1 : s.tokens.length + 1 < U64 := by
      simp only [List.length_cons] at hb
      omega
    obtain ⟨hinv', hlen⟩ := rinv_step s op hinv hb1
    refine ih (runROp s op) hinv' ?_
    simp only [List.length_cons] at hb
    omega

/-- The state just after the registry's `initialize` satisfies the invariant
and has an empty token map. -/
theorem rinv_init_state (d nm sy bu : String) :
    RInv (Crc721.r_init Crc721.emptyR d nm sy bu).1 ∧
    ((Crc721.r_init Crc721.emptyR d nm sy bu).1).tokens.length = 0 := by
  have hfields : ((Crc721.r_init Crc721.emptyR d nm sy bu).1).tokens = [] ∧
      ((Crc721.r_init Crc721.emptyR d nm sy bu).1).balances = [] ∧
      ((Crc721.r_init Crc721.emptyR d nm sy bu).1).owner_tokens = [] := by
    simp only [Crc721.r_init]
    split_ifs <;> simp [Crc721.emptyR]
  obtain ⟨hT, hB, hO⟩ := hfields
  refine ⟨⟨fun a => ⟨?_, fun x => ?_⟩, fun a => ?_, fun x t hx => ?_⟩,
    by rw [hT]; rfl⟩
  · unfold ownerList; rw [hO]; simp [kvGet]
  · unfold ownerList ownedBy; rw [hO, hT]; simp [kvGet]
  · unfold ownerList; rw [hO, hB]; simp [kvGet]
  · rw [hT] at hx; simp [kvGet] at hx

/-- C8 counterexample: the claim ranges over sequences that include `burn`,
but `burn` never touches the per-owner sequences: after minting token 1 to
`0xZ` and burning it, `0xZ`'s stored sequence still contains token 1 while
the token record is burned with owner "0x0" — the sequence and the records
disagree. -/
theorem c8_counterexample_burn_leaves_stale_index :
    1 ∈ ownerList (Crc721.burn rZ1 "0xZ" 1).1 "0xZ" ∧
    ownedBy (Crc721.burn rZ1 "0xZ" 1).1 "0xZ" 1 = false := by
  decide

/-- C8 amended: after every sequence of mint / transfer_from /
safe_transfer_from operations (burn excluded, and fewer operations than
2^64 so the u64 balance counters cannot overflow) starting from a freshly
initialized registry, every address's stored per-owner sequence contains
exactly the token_ids whose record names it as owner with the burned flag
false, each exactly once. -/
theorem c8_owner_sequences_match_records (d nm sy bu : String)
    (ops : List ROp) (h : ops.length < U64) :
    C8Prop (runROps (Crc721.r_init Crc721.emptyR d nm sy bu).1 ops) := by
  obtain ⟨hinv, hlen⟩ := rinv_init_state d nm sy bu
  exact (rinv_run ops _ hinv (by rw [hlen]; omega)).1

/-- Witness for the amended C8 at a concrete input: a mint followed by a
self-transfer. -/
theorem c8_witness :
    C8Prop (runROps (Crc721.r_init Crc721.emptyR "0xD" "P" "S" "u").1
      [ROp.mintOp "0xD" "0xX" 1 "a", ROp.transferOp "0xX" "0xX" "0xY" 1]) :=
  c8_owner_sequences_match_records "0xD" "P" "S" "u"
    [ROp.mintOp "0xD" "0xX" 1 "a", ROp.transferOp "0xX" "0xX" "0xY" 1]
    (by decide)
